import Mathlib

/-!
Shallow embedding of the netlink attribute codec in `libnl/attr.py`
(functions `nla_type`, `nla_data`, `nla_len`, `nla_ok`, `validate_nla`,
`nla_parse`, `nla_put`, `nla_put_u32`, `nla_get_u32`), together with the
parts of the wire model that `attr.py` imports from sibling modules
(`nlattr`, `NLA_HDRLEN`, `NLA_TYPE_MASK`, `nla_attr_minlen`, the errno
constants and the stream iterator), which are modelled from the spec.
-/

namespace Libnl

/-- Attribute kind constants, from `attr.py` lines 17-26. -/
def NLA_UNSPEC : Nat := 0

def NLA_U8 : Nat := 1

def NLA_U16 : Nat := 2

def NLA_U32 : Nat := 3

def NLA_U64 : Nat := 4

def NLA_STRING : Nat := 5

def NLA_FLAG : Nat := 6

def NLA_MSECS : Nat := 7

def NLA_NESTED : Nat := 8

def NLA_TYPE_MAX : Nat := NLA_NESTED

/-- Modelled from the spec: the fixed attribute header size in bytes
(`NLA_HDRLEN`, imported by `attr.py` from `libnl.linux_private.netlink`,
which is not part of the sources; the spec fixes it at 4 bytes:
two fixed-width unsigned fields, `length` then `type`). -/
def NLA_HDRLEN : Nat := 4

/-- Modelled from the spec: `NLA_TYPE_MASK`, imported by `attr.py` from
`libnl.linux_private.netlink`.  The type tag's high reserved flag bits
(nested / byte-order) are masked off before policy comparison, leaving
the low 14 bits. -/
def NLA_TYPE_MASK : Nat := 0x3FFF

/-- Modelled from the spec: error code `NLE_RANGE` (`OutOfRange`),
imported by `attr.py` from `libnl.errno`, which is not in the sources. -/
def NLE_RANGE : Int := 8

/-- Modelled from the spec: error code `NLE_INVAL` (`InvalidValue`),
imported by `attr.py` from `libnl.errno`, which is not in the sources. -/
def NLE_INVAL : Int := 7

/-- Modelled from the spec: the payload object attached to a Python
`nlattr`.  It is either a raw byte region (decode direction, also used
for string and zero-length flag payloads) or a fixed-width `ctypes`
integer box produced by the typed putters (encode direction). -/
inductive Payload where
  | raw (bs : List Nat)
  | cuint8 (v : Nat)
  | cuint16 (v : Nat)
  | cuint32 (v : Nat)
  | cuint64 (v : Nat)
  deriving Repr, DecidableEq

/-- Modelled from the spec: the `nlattr` record view imported by `attr.py`
from `libnl.linux_private.netlink`.  `nla_len` is the declared total
length (header plus payload, unsigned), `nla_type` the raw type tag
(flag bits included), `payload` the attached payload object.
A freshly constructed `nlattr()` has `nla_len = 0`. -/
structure nlattr where
  nla_len : Nat := 0
  nla_type : Nat := 0
  payload : Payload := .raw []
  deriving Repr, DecidableEq

/-- `nla_type` (attr.py line 39): the type tag with the reserved flag
bits masked off. -/
def nla_type (nla : nlattr) : Nat :=
  nla.nla_type &&& NLA_TYPE_MASK

/-- `nla_data` (attr.py line 52): the payload section. -/
def nla_data (nla : nlattr) : Payload :=
  nla.payload

/-- `nla_len` (attr.py line 65): `int(nla.nla_len - NLA_HDRLEN)`.
Python integer subtraction, so the result may be negative. -/
def nla_len (nla : nlattr) : Int :=
  (nla.nla_len : Int) - (NLA_HDRLEN : Int)

/-- `nla_ok` (attr.py line 83):
`remaining >= sizeof(*nla) and sizeof(*nla) <= nla.nla_len <= remaining`,
with `sizeof(nlattr)` the fixed header size. -/
def nla_ok (nla : nlattr) (remaining : Int) : Bool :=
  decide ((NLA_HDRLEN : Int) ≤ remaining) &&
    decide ((NLA_HDRLEN : Int) ≤ (nla.nla_len : Int)) &&
    decide ((nla.nla_len : Int) ≤ remaining)

/-- Modelled from the spec: the per-kind natural minimum payload length
table `nla_attr_minlen`, referenced by `attr.py` line 127 but defined in
a module absent from the sources.  Per the spec: 0 for unspecified and
flag, the fixed byte width for the integer kinds (u8 = 1, u16 = 2,
u32 = 4, u64 = 8, msecs = 8), and 1 for string. -/
def nla_attr_minlen (kind : Nat) : Nat :=
  [0, 1, 2, 4, 8, 1, 0, 8, 0].getD kind 0

/-- The `nla_policy` entries consumed by `validate_nla`: an expected
kind (`type_`), an optional explicit minimum length and an optional
explicit maximum length, 0 meaning unset as in the Python truth test. -/
structure nla_policy where
  type_ : Nat := 0
  minlen : Nat := 0
  maxlen : Nat := 0
  deriving Repr, DecidableEq

/-- A policy table keyed by masked type, as indexed by `policy[type_]`
in `validate_nla`. -/
def PolicyTable : Type := Nat → nla_policy

/-- Byte lookup inside a payload object, used by the string terminator
check `data[nla_len(nla) - 1]` in `validate_nla`; `none` models the
Python exception raised when the index does not denote a byte. -/
def payloadByte (p : Payload) (i : Nat) : Option Nat :=
  match p with
  | .raw bs => bs.get? i
  | _ => none

/-- The effective minimum payload length computed by `validate_nla`
(attr.py lines 116, 124-127): the explicit minimum when set (non-zero),
else the kind's natural minimum for kinds other than `NLA_UNSPEC`,
else 0. -/
def effective_minlen (pt : nla_policy) : Nat :=
  if pt.minlen ≠ 0 then pt.minlen
  else if pt.type_ ≠ NLA_UNSPEC then nla_attr_minlen pt.type_
  else 0

/-- The checks of `validate_nla` that follow the minimum-length check
(attr.py lines 131-139): maximum length, then string NUL terminator.
`none` models a raised Python exception. -/
def validate_after_minlen (nla : nlattr) (pt : nla_policy) : Option Int :=
  if pt.maxlen ≠ 0 ∧ nla_len nla > (pt.maxlen : Int) then some (-NLE_RANGE)
  else if pt.type_ = NLA_STRING then
    match payloadByte (nla_data nla) ((nla_len nla).toNat - 1) with
    | none => none
    | some b => if b ≠ 0 then some (-NLE_INVAL) else some 0
  else some 0

/-- `validate_nla` (attr.py lines 105-139).  Returns `some code`
(0 success, negative failure); `none` models the raised `BUG` when the
policy's kind exceeds `NLA_TYPE_MAX`, or any other Python exception. -/
def validate_nla (nla : nlattr) (maxtype : Nat) (policy : PolicyTable) :
    Option Int :=
  if nla_type nla > maxtype then some 0
  else if (policy (nla_type nla)).type_ > NLA_TYPE_MAX then none
  else if nla_len nla < (effective_minlen (policy (nla_type nla)) : Int) then
    some (-NLE_RANGE)
  else validate_after_minlen nla (policy (nla_type nla))

/-- The loop body of `nla_parse` (attr.py lines 163-172), processing the
decoded record stream while threading the caller's index array `tb`
explicitly.  The Python mutates `tb` in place, so the pair returned here
carries both the return code and the state of `tb` at return time;
`none` models an escaping exception from `validate_nla`. -/
def nla_parse_go (maxtype : Nat) (policy : Option PolicyTable)
    (tb : List (Option nlattr)) :
    List nlattr → Option (Int × List (Option nlattr))
  | [] => some (0, tb)
  | a :: rest =>
    if nla_type a > maxtype then nla_parse_go maxtype policy tb rest
    else
      match policy with
      | some p =>
        match validate_nla a maxtype p with
        | none => none
        | some err =>
          if err < 0 then some (err, tb)
          else nla_parse_go maxtype policy (tb.set (nla_type a) (some a)) rest
      | none => nla_parse_go maxtype policy (tb.set (nla_type a) (some a)) rest

/-- `nla_parse` (attr.py lines 142-172).  The caller's index array `tb`
is first cleared (`memset`) to `maxtype + 1` empty slots, then the
stream is walked record by record.  Modelled from the spec: the
iterator `nla_for_each_attr` (absent from the sources) yields the
successive record views of the stream, so the stream argument is the
list of decoded records. -/
def nla_parse (maxtype : Nat) (head : List nlattr)
    (policy : Option PolicyTable) : Option (Int × List (Option nlattr)) :=
  nla_parse_go maxtype policy (List.replicate (maxtype + 1) none) head

/-- Modelled from the spec: the message object handed to `nla_put`.
Only the attribute list hanging off `msg.nm_nlh.attrs` is relevant. -/
structure nl_msg where
  attrs : List nlattr := []
  deriving Repr, DecidableEq

/-- `nla_put` (attr.py lines 175-191): builds
`nlattr(nla_type=attrtype, payload=data)`, appends it to
`msg.nm_nlh.attrs` and returns 0.  The pair carries the return code and
the updated message. -/
def nla_put (msg : nl_msg) (attrtype : Nat) (data : Payload) :
    Int × nl_msg :=
  let nla : nlattr := { nla_type := attrtype, payload := data }
  (0, { msg with attrs := msg.attrs ++ [nla] })

/-- `ctypes.c_uint32(value)`: the value truncated to 32 unsigned bits. -/
def c_uint32 (value : Int) : Nat :=
  (value % 4294967296).toNat

/-- `nla_put_u32` (attr.py lines 194-206): wraps the value in a
`c_uint32` box and stores it via `nla_put`. -/
def nla_put_u32 (msg : nl_msg) (attrtype : Nat) (value : Int) :
    Int × nl_msg :=
  nla_put msg attrtype (.cuint32 (c_uint32 value))

/-- `nla_get_u32` (attr.py lines 209-217): asserts the payload is a
`c_uint32` box and returns its value; `none` models the assertion
failure. -/
def nla_get_u32 (nla : nlattr) : Option Nat :=
  match nla.payload with
  | .cuint32 v => some v
  | _ => none

/-- Modelled from the spec: the remaining typed helpers of §4.5
(`nla_put_u8`/`u16`/`u64`, the string and flag putters and their
getters), which the source file does not reach; each integer helper
serializes the value in its fixed byte width and stores it via
`nla_put`, mirroring the `nla_put_u32`/`nla_get_u32` pair above. -/
def c_uint8 (value : Int) : Nat :=
  (value % 256).toNat

/-- Modelled from the spec: `ctypes.c_uint16`, 16-bit truncation. -/
def c_uint16 (value : Int) : Nat :=
  (value % 65536).toNat

/-- Modelled from the spec: `ctypes.c_uint64`, 64-bit truncation. -/
def c_uint64 (value : Int) : Nat :=
  (value % 18446744073709551616).toNat

/-- Modelled from the spec: `nla_put_u8`. -/
def nla_put_u8 (msg : nl_msg) (attrtype : Nat) (value : Int) :
    Int × nl_msg :=
  nla_put msg attrtype (.cuint8 (c_uint8 value))

/-- Modelled from the spec: `nla_get_u8`. -/
def nla_get_u8 (nla : nlattr) : Option Nat :=
  match nla.payload with
  | .cuint8 v => some v
  | _ => none

/-- Modelled from the spec: `nla_put_u16`. -/
def nla_put_u16 (msg : nl_msg) (attrtype : Nat) (value : Int) :
    Int × nl_msg :=
  nla_put msg attrtype (.cuint16 (c_uint16 value))

/-- Modelled from the spec: `nla_get_u16`. -/
def nla_get_u16 (nla : nlattr) : Option Nat :=
  match nla.payload with
  | .cuint16 v => some v
  | _ => none

/-- Modelled from the spec: `nla_put_u64`. -/
def nla_put_u64 (msg : nl_msg) (attrtype : Nat) (value : Int) :
    Int × nl_msg :=
  nla_put msg attrtype (.cuint64 (c_uint64 value))

/-- Modelled from the spec: `nla_get_u64`. -/
def nla_get_u64 (nla : nlattr) : Option Nat :=
  match nla.payload with
  | .cuint64 v => some v
  | _ => none

/-- Modelled from the spec: the string putter appends the text plus a
mandatory trailing NUL before calling `nla_put`. -/
def nla_put_string (msg : nl_msg) (attrtype : Nat) (s : List Nat) :
    Int × nl_msg :=
  nla_put msg attrtype (.raw (s ++ [0]))

/-- Modelled from the spec: the string getter returns the payload text
without its trailing NUL terminator. -/
def nla_get_string (nla : nlattr) : Option (List Nat) :=
  match nla.payload with
  | .raw bs => some bs.dropLast
  | _ => none

/-- Modelled from the spec: the flag putter stores a zero-length
payload. -/
def nla_put_flag (msg : nl_msg) (attrtype : Nat) : Int × nl_msg :=
  nla_put msg attrtype (.raw [])

/-- Modelled from the spec: a flag reads back as the presence of its
attribute. -/
def nla_get_flag (nla : Option nlattr) : Bool :=
  nla.isSome

/-! Concrete example data used by witnesses and counterexamples. -/

/-- An example policy table: type 0 expects a string, type 2 expects a
u32, every other type is unspecified with no explicit bounds. -/
def examplePolicy : PolicyTable := fun t =>
  if t = 0 then { type_ := NLA_STRING }
  else if t = 2 then { type_ := NLA_U32 }
  else { }

/-- Example record: type 1, declared length 4 (empty payload). -/
def exR1 : nlattr := { nla_len := 4, nla_type := 1, payload := .raw [] }

/-- Example record: type 2, declared length 4 (empty payload), too
short for the u32 policy of type 2. -/
def exR2 : nlattr := { nla_len := 4, nla_type := 2, payload := .raw [] }

/-- Example record: type 1, declared length 5, one payload byte. -/
def exR1b : nlattr := { nla_len := 5, nla_type := 1, payload := .raw [7] }

/-! Theorems about the embedded code, one per claim. -/

/-- C1: `nla_ok` returns true iff `remaining` is at least the fixed
header size and the declared `nla_len` lies between the header size and
`remaining`, inclusive on both ends; in particular it is never true
when the declared length exceeds `remaining`. -/
theorem nla_ok_safe_iff (nla : nlattr) (remaining : Int) :
    (nla_ok nla remaining = true ↔
      ((NLA_HDRLEN : Int) ≤ remaining ∧
        (NLA_HDRLEN : Int) ≤ (nla.nla_len : Int) ∧
        (nla.nla_len : Int) ≤ remaining)) ∧
    (remaining < (nla.nla_len : Int) → nla_ok nla remaining = false) := by
  refine ⟨by simp [nla_ok, and_assoc], fun h => ?_⟩
  simp only [nla_ok, Bool.and_eq_false_iff, decide_eq_false_iff_not, not_le]
  right
  exact h

/-- C1 witness: a record declaring length 9 with only 5 bytes remaining
is rejected by the safety check. -/
theorem nla_ok_safe_iff_witness :
    nla_ok { nla_len := 9, nla_type := 0, payload := .raw [] } 5 = false :=
  (nla_ok_safe_iff { nla_len := 9, nla_type := 0, payload := .raw [] }
    5).2 (by decide)

/-- C8 counterexample: on a record with declared length 2 (below the
4-byte header size), `nla_len` does not fail with any error; it simply
returns the negative value -2. -/
theorem nla_len_negative_counterexample :
    nla_len { nla_len := 2, nla_type := 0, payload := .raw [] } = -2 := by
  decide

/-- C8 (amended): `nla_len` returns the declared length minus the
header size as a plain (possibly negative) integer with no failure
path; whenever the iterator's safety check `nla_ok` was honoured the
result is non-negative. -/
theorem nla_len_no_failure (nla : nlattr) (remaining : Int)
    (h : nla_ok nla remaining = true) :
    nla_len nla = (nla.nla_len : Int) - (NLA_HDRLEN : Int) ∧
      0 ≤ nla_len nla := by
  refine ⟨rfl, ?_⟩
  simp only [nla_ok, Bool.and_eq_true, decide_eq_true_eq] at h
  simp only [nla_len]
  omega

/-- C8 witness: at a record of declared length 8 with 8 bytes
remaining, the safety check holds and the payload length is 4 ≥ 0. -/
theorem nla_len_no_failure_witness :
    nla_len { nla_len := 8, nla_type := 0, payload := .raw [] } =
      ((8 : Nat) : Int) - (NLA_HDRLEN : Int) ∧
      0 ≤ nla_len { nla_len := 8, nla_type := 0, payload := .raw [] } :=
  nla_len_no_failure { nla_len := 8, nla_type := 0, payload := .raw [] } 8
    (by decide)

/-- C9: `nla_put` never fails: it returns 0 for every message, type and
payload, and its only effect is appending exactly one new attribute
carrying that type and payload, leaving the previously appended
attributes unchanged. -/
theorem nla_put_never_fails (msg : nl_msg) (attrtype : Nat)
    (data : Payload) :
    (nla_put msg attrtype data).1 = 0 ∧
    (nla_put msg attrtype data).2.attrs =
      msg.attrs ++ [{ nla_type := attrtype, payload := data }] :=
  ⟨rfl, rfl⟩

/-- C3: round-trip: for every in-range value of each supported kind
(u8/u16/u32/u64/string/flag) and every attribute type tag, reading the
attribute just appended by the corresponding putter yields the value
back; in particular for every 32-bit unsigned `v32`, `nla_get_u32` on
the attribute appended by `nla_put_u32` equals `v32`. -/
theorem nla_put_get_roundtrip (msg : nl_msg) (attrtype : Nat)
    (v8 v16 v32 v64 : Nat) (s : List Nat)
    (h8 : v8 < 256) (h16 : v16 < 65536) (h32 : v32 < 4294967296)
    (h64 : v64 < 18446744073709551616) :
    Option.bind ((nla_put_u32 msg attrtype (v32 : Int)).2.attrs.getLast?)
      nla_get_u32 = some v32 ∧
    Option.bind ((nla_put_u8 msg attrtype (v8 : Int)).2.attrs.getLast?)
      nla_get_u8 = some v8 ∧
    Option.bind ((nla_put_u16 msg attrtype (v16 : Int)).2.attrs.getLast?)
      nla_get_u16 = some v16 ∧
    Option.bind ((nla_put_u64 msg attrtype (v64 : Int)).2.attrs.getLast?)
      nla_get_u64 = some v64 ∧
    Option.bind ((nla_put_string msg attrtype s).2.attrs.getLast?)
      nla_get_string = some s ∧
    nla_get_flag ((nla_put_flag msg attrtype).2.attrs.getLast?) = true := by
  have hm32 : c_uint32 ((v32 : Nat) : Int) = v32 := by
    simp only [c_uint32]
    omega
  have hm8 : c_uint8 ((v8 : Nat) : Int) = v8 := by
    simp only [c_uint8]
    omega
  have hm16 : c_uint16 ((v16 : Nat) : Int) = v16 := by
    simp only [c_uint16]
    omega
  have hm64 : c_uint64 ((v64 : Nat) : Int) = v64 := by
    simp only [c_uint64]
    omega
  refine ⟨?_, ?_, ?_, ?_, ?_, ?_⟩
  · simp [nla_put_u32, nla_put, List.getLast?_concat, nla_get_u32, hm32]
  · simp [nla_put_u8, nla_put, List.getLast?_concat, nla_get_u8, hm8]
  · simp [nla_put_u16, nla_put, List.getLast?_concat, nla_get_u16, hm16]
  · simp [nla_put_u64, nla_put, List.getLast?_concat, nla_get_u64, hm64]
  · simp [nla_put_string, nla_put, List.getLast?_concat, nla_get_string]
  · simp [nla_put_flag, nla_put, List.getLast?_concat, nla_get_flag]

/-- C3 witness: putting 7 as a u32 attribute (and small values for the
other kinds) and getting them back yields the values again. -/
theorem nla_put_get_roundtrip_witness :
    Option.bind ((nla_put_u32 {} 1 ((7 : Nat) : Int)).2.attrs.getLast?)
      nla_get_u32 = some 7 ∧
    Option.bind ((nla_put_u8 {} 1 ((5 : Nat) : Int)).2.attrs.getLast?)
      nla_get_u8 = some 5 ∧
    Option.bind ((nla_put_u16 {} 1 ((6 : Nat) : Int)).2.attrs.getLast?)
      nla_get_u16 = some 6 ∧
    Option.bind ((nla_put_u64 {} 1 ((9 : Nat) : Int)).2.attrs.getLast?)
      nla_get_u64 = some 9 ∧
    Option.bind ((nla_put_string {} 1 [65]).2.attrs.getLast?)
      nla_get_string = some [65] ∧
    nla_get_flag ((nla_put_flag {} 1).2.attrs.getLast?) = true :=
  nla_put_get_roundtrip {} 1 5 6 7 9 [65] (by decide) (by decide)
    (by decide) (by decide)

/-- C10: for every integer `v` (negative or ≥ 2^32 included),
`nla_put_u32` stores `v` truncated to 32 unsigned bits, so
`nla_get_u32` on the stored attribute returns `v` modulo 2^32. -/
theorem nla_put_u32_truncates (msg : nl_msg) (attrtype : Nat) (v : Int) :
    Option.bind ((nla_put_u32 msg attrtype v).2.attrs.getLast?)
      nla_get_u32 = some ((v % 4294967296).toNat) := by
  simp [nla_put_u32, nla_put, List.getLast?_concat, nla_get_u32, c_uint32]

/-- Helper: a record whose masked type exceeds `maxtype` is skipped by
the parse loop wherever it occurs, leaving the result unchanged. -/
theorem nla_parse_go_skip_high (maxtype : Nat) (pol : Option PolicyTable)
    (a : nlattr) (h : maxtype < nla_type a) (post : List nlattr) :
    ∀ (pre : List nlattr) (tb : List (Option nlattr)),
      nla_parse_go maxtype pol tb (pre ++ a :: post) =
        nla_parse_go maxtype pol tb (pre ++ post) := by
  intro pre
  induction pre with
  | nil =>
    intro tb
    simp only [List.nil_append, nla_parse_go]
    rw [if_pos h]
  | cons b pre ih =>
    intro tb
    simp only [List.cons_append, nla_parse_go]
    by_cases hb : maxtype < nla_type b
    · rw [if_pos hb, if_pos hb]
      exact ih tb
    · rw [if_neg hb, if_neg hb]
      cases pol with
      | none => exact ih _
      | some p =>
        cases hv : validate_nla b maxtype p with
        | none => simp only [hv]
        | some err =>
          simp only [hv]
          by_cases he : err < 0
          · rw [if_pos he, if_pos he]
          · rw [if_neg he, if_neg he]
            exact ih _

/-- C4: a record whose masked type exceeds `maxtype` is accepted by
`validate_nla` without any policy validation (result 0, not an error),
and `nla_parse` over a stream containing such a record behaves exactly
as over the stream without it, so the record is absent from the
resulting index. -/
theorem validate_nla_accepts_unknown_type (maxtype : Nat)
    (p : PolicyTable) (a : nlattr) (pre post : List nlattr)
    (h : maxtype < nla_type a) :
    validate_nla a maxtype p = some 0 ∧
    nla_parse maxtype (pre ++ a :: post) (some p) =
      nla_parse maxtype (pre ++ post) (some p) := by
  constructor
  · simp only [validate_nla]
    rw [if_pos h]
  · exact nla_parse_go_skip_high maxtype (some p) a h post pre _

/-- C4 witness: with `maxtype = 2`, a record of type 5 validates to 0
and parsing the one-record stream holding it equals parsing the empty
stream. -/
theorem validate_nla_accepts_unknown_type_witness :
    validate_nla { nla_len := 4, nla_type := 5, payload := .raw [] } 2
        examplePolicy = some 0 ∧
    nla_parse 2 ([] ++ { nla_len := 4, nla_type := 5, payload := .raw [] }
        :: []) (some examplePolicy) =
      nla_parse 2 ([] ++ []) (some examplePolicy) :=
  validate_nla_accepts_unknown_type 2 examplePolicy
    { nla_len := 4, nla_type := 5, payload := .raw [] } [] [] (by decide)

/-- Helper: when every record of `pre` validates to 0 and `a` (of
recognized type) fails validation, the parse loop over
`pre ++ a :: post` stops at `a`, returning the failing code together
with the index state reached after `pre`, and never looks at `post`. -/
theorem nla_parse_go_abort (maxtype : Nat) (p : PolicyTable) (a : nlattr)
    (err : Int) (ha : validate_nla a maxtype p = some err) (herr : err < 0)
    (hty : nla_type a ≤ maxtype) (post : List nlattr) :
    ∀ (pre : List nlattr) (tb : List (Option nlattr)),
      (∀ b ∈ pre, validate_nla b maxtype p = some 0) →
      ∃ tb', nla_parse_go maxtype (some p) tb pre = some (0, tb') ∧
        nla_parse_go maxtype (some p) tb (pre ++ a :: post) =
          some (err, tb') := by
  intro pre
  induction pre with
  | nil =>
    intro tb _
    refine ⟨tb, rfl, ?_⟩
    simp only [List.nil_append, nla_parse_go]
    rw [if_neg (Nat.not_lt.2 hty)]
    simp only [ha]
    rw [if_pos herr]
  | cons b pre ih =>
    intro tb hall
    have hb : validate_nla b maxtype p = some 0 :=
      hall b (List.mem_cons_self b pre)
    have hrest : ∀ c ∈ pre, validate_nla c maxtype p = some 0 :=
      fun c hc => hall c (List.mem_cons_of_mem b hc)
    simp only [List.cons_append, nla_parse_go]
    by_cases hbty : maxtype < nla_type b
    · rw [if_pos hbty, if_pos hbty]
      exact ih tb hrest
    · rw [if_neg hbty, if_neg hbty]
      simp only [hb]
      rw [if_neg (by simp : ¬((0 : Int) < 0)), if_neg (by simp : ¬((0 : Int) < 0))]
      exact ih _ hrest

/-- C2 counterexample: with `maxtype = 2`, the stream `[exR1, exR2]`
(first record valid of type 1, second record failing the u32 policy)
makes `nla_parse` return the error code -8 together with a caller
index array that still holds the entry stored for the first record —
the failed parse does leave a partial index in `tb`. -/
theorem nla_parse_partial_index_counterexample :
    nla_parse 2 [exR1, exR2] (some examplePolicy) =
      some (-8, [none, some exR1, none]) ∧
    ([none, some exR1, none] : List (Option nlattr)) ≠
      List.replicate 3 none := by
  constructor
  · decide
  · decide

/-- C2 (amended): when a record of recognized type fails validation,
the parse aborts at that first failure and the validation error is
propagated to the caller, with the records after the failure never
stored; however the caller's index array keeps the entries already
stored for the records that preceded the failure (the Python code
mutates `tb` in place before returning the error). -/
theorem nla_parse_aborts_on_first_failure (maxtype : Nat)
    (p : PolicyTable) (pre : List nlattr) (a : nlattr)
    (post : List nlattr) (err : Int)
    (hpre : ∀ b ∈ pre, validate_nla b maxtype p = some 0)
    (ha : validate_nla a maxtype p = some err) (herr : err < 0)
    (hty : nla_type a ≤ maxtype) :
    ∃ tb, nla_parse maxtype pre (some p) = some (0, tb) ∧
      nla_parse maxtype (pre ++ a :: post) (some p) = some (err, tb) :=
  nla_parse_go_abort maxtype p a err ha herr hty post pre
    (List.replicate (maxtype + 1) none) hpre

/-- C2 witness: instantiating the abort theorem on the concrete stream
`[exR1, exR2]` with `maxtype = 2`. -/
theorem nla_parse_aborts_on_first_failure_witness :
    ∃ tb, nla_parse 2 [exR1] (some examplePolicy) = some (0, tb) ∧
      nla_parse 2 ([exR1] ++ exR2 :: []) (some examplePolicy) =
        some (-8, tb) :=
  nla_parse_aborts_on_first_failure 2 examplePolicy [exR1] exR2 [] (-8)
    (by decide) (by decide) (by decide) (by decide)

/-- Helper: after a successful run of the parse loop, the slot for any
recognized type `t` holds the last stream record of masked type `t`,
or keeps its initial content when the stream has none. -/
theorem nla_parse_go_entry (maxtype : Nat) (pol : Option PolicyTable) :
    ∀ (attrs : List nlattr) (tb tb' : List (Option nlattr)),
      nla_parse_go maxtype pol tb attrs = some (0, tb') →
      ∀ t, t ≤ maxtype → t < tb.length →
        tb'[t]? = ((attrs.filter (fun a => nla_type a == t)).getLast?).elim
          tb[t]? (fun a => some (some a)) := by
  intro attrs
  induction attrs with
  | nil =>
    intro tb tb' h t ht htl
    simp only [nla_parse_go, Option.some.injEq, Prod.mk.injEq, true_and] at h
    rw [← h]
    simp
  | cons a rest ih =>
    intro tb tb' h t ht htl
    simp only [nla_parse_go] at h
    by_cases hty : maxtype < nla_type a
    · rw [if_pos hty] at h
      have hne : (nla_type a == t) = false := by
        simp only [beq_eq_false_iff_ne, ne_eq]
        omega
      simp only [List.filter_cons, hne, Bool.false_eq_true, if_false]
      exact ih tb tb' h t ht htl
    · rw [if_neg hty] at h
      have hgo : nla_parse_go maxtype pol
          (tb.set (nla_type a) (some a)) rest = some (0, tb') := by
        cases pol with
        | none => exact h
        | some p =>
          cases hv : validate_nla a maxtype p with
          | none =>
            simp only [hv] at h
            exact absurd h (by simp)
          | some err =>
            simp only [hv] at h
            by_cases he : err < 0
            · rw [if_pos he] at h
              simp only [Option.some.injEq, Prod.mk.injEq] at h
              exact absurd h.1 (by omega)
            · rw [if_neg he] at h
              exact h
      have ihr := ih (tb.set (nla_type a) (some a)) tb' hgo t ht
        (by rw [List.length_set]; exact htl)
      by_cases hat : nla_type a = t
      · have hbt : (nla_type a == t) = true := by simp [hat]
        simp only [List.filter_cons, hbt, if_true, List.getLast?_cons,
          Option.elim]
        cases hl : (rest.filter (fun a => nla_type a == t)).getLast? with
        | none =>
          rw [hl] at ihr
          simp only [Option.elim] at ihr
          rw [ihr, hat, List.getElem?_set_self htl]
          simp
        | some c =>
          rw [hl] at ihr
          simp only [Option.elim] at ihr
          rw [ihr]
          simp
      · have hbf : (nla_type a == t) = false := by
          simp only [beq_eq_false_iff_ne, ne_eq]
          exact hat
        simp only [List.filter_cons, hbf, Bool.false_eq_true, if_false]
        rw [List.getElem?_set_ne hat] at ihr
        exact ihr

/-- C7: in a successfully parsed stream holding two records `r1`, `r2`
of the same recognized type `t` (with `r2` the last record of that
type), the index maps `t` to the later record `r2`, while the entry of
every other recognized type `s` equals the last stream record of type
`s` (or stays empty when there is none) — unaffected by the overwrite. -/
theorem nla_parse_last_wins (maxtype : Nat) (pol : Option PolicyTable)
    (pre mid post : List nlattr) (r1 r2 : nlattr) (t : Nat)
    (tb : List (Option nlattr))
    (h1 : nla_type r1 = t) (h2 : nla_type r2 = t) (ht : t ≤ maxtype)
    (hpost : ∀ b ∈ post, nla_type b ≠ t)
    (hs : nla_parse maxtype (pre ++ r1 :: mid ++ r2 :: post) pol =
      some (0, tb)) :
    tb[t]? = some (some r2) ∧
    ∀ s, s ≤ maxtype → s ≠ t →
      tb[s]? = (((pre ++ r1 :: mid ++ r2 :: post).filter
        (fun a => nla_type a == s)).getLast?).elim (some none)
        (fun a => some (some a)) := by
  have hlen : ∀ u, u ≤ maxtype →
      u < (List.replicate (maxtype + 1) (none : Option nlattr)).length := by
    intro u hu
    rw [List.length_replicate]
    omega
  have hrep : ∀ u, u ≤ maxtype →
      (List.replicate (maxtype + 1) (none : Option nlattr))[u]? =
        some none := by
    intro u hu
    rw [List.getElem?_replicate, if_pos (by omega)]
  constructor
  · have he := nla_parse_go_entry maxtype pol _ _ tb hs t ht (hlen t ht)
    have hp : post.filter (fun a => nla_type a == t) = [] := by
      rw [List.filter_eq_nil_iff]
      intro b hb
      simp [hpost b hb]
    rw [he]
    simp [List.filter_append, List.filter_cons, h1, h2, hp,
      List.getLast?_append, List.getLast?_concat, List.getLast?_cons,
      Option.or]
  · intro s hsle hst
    have he := nla_parse_go_entry maxtype pol _ _ tb hs s hsle (hlen s hsle)
    rw [he, hrep s hsle]

/-- C7 witness: the two-record stream `[exR1, exR1b]`, both of type 1,
parses into an index whose slot 1 is the later record `exR1b`. -/
theorem nla_parse_last_wins_witness :
    ([none, some exR1b, none] : List (Option nlattr))[1]? =
      some (some exR1b) :=
  (nla_parse_last_wins 2 (some examplePolicy) [] [] [] exR1 exR1b 1
    [none, some exR1b, none] (by decide) (by decide) (by decide)
    (by simp) (by decide)).1

/-- C5: for a record whose type has a policy entry, the effective
minimum is the explicit minimum when set, else the kind's natural
minimum from `nla_attr_minlen`; a record whose payload length is
strictly below the effective minimum fails with `-NLE_RANGE`
(`OutOfRange`), and one exactly at the minimum passes the
minimum-length check, its outcome being that of the remaining checks. -/
theorem validate_nla_effective_minlen (maxtype : Nat) (p : PolicyTable)
    (a : nlattr)
    (hty : nla_type a ≤ maxtype)
    (hk : (p (nla_type a)).type_ ≤ NLA_TYPE_MAX) :
    ((p (nla_type a)).minlen ≠ 0 →
      effective_minlen (p (nla_type a)) = (p (nla_type a)).minlen) ∧
    ((p (nla_type a)).minlen = 0 →
      effective_minlen (p (nla_type a)) =
        nla_attr_minlen (p (nla_type a)).type_) ∧
    (nla_len a < (effective_minlen (p (nla_type a)) : Int) →
      validate_nla a maxtype p = some (-NLE_RANGE)) ∧
    (nla_len a = (effective_minlen (p (nla_type a)) : Int) →
      validate_nla a maxtype p =
        validate_after_minlen a (p (nla_type a))) := by
  refine ⟨fun h => ?_, fun h => ?_, fun h => ?_, fun h => ?_⟩
  · simp [effective_minlen, h]
  · simp only [effective_minlen, h, ne_eq, not_true_eq_false, if_false]
    by_cases h0 : (p (nla_type a)).type_ = NLA_UNSPEC
    · rw [h0]
      simp [nla_attr_minlen, NLA_UNSPEC]
    · simp [h0]
  · simp only [validate_nla]
    rw [if_neg (Nat.not_lt.2 hty), if_neg (Nat.not_lt.2 hk), if_pos h]
  · simp only [validate_nla]
    rw [if_neg (Nat.not_lt.2 hty), if_neg (Nat.not_lt.2 hk),
      if_neg (by rw [h]; exact lt_irrefl _)]

/-- C5 witness: a record of type 2 with declared length 6 (payload
length 2) is below the u32 policy's effective minimum of 4 and fails
with `-NLE_RANGE`. -/
theorem validate_nla_effective_minlen_witness :
    validate_nla { nla_len := 6, nla_type := 2, payload := .raw [] } 2
      examplePolicy = some (-NLE_RANGE) :=
  (validate_nla_effective_minlen 2 examplePolicy
    { nla_len := 6, nla_type := 2, payload := .raw [] }
    (by decide) (by decide)).2.2.1 (by decide)

/-- C6: for a record validated under a string policy that passes the
length checks and whose last payload byte is `b`, validation fails with
`-NLE_INVAL` (`InvalidValue`) exactly when `b` is not the NUL
terminator, and succeeds otherwise. -/
theorem validate_nla_string_terminator (maxtype : Nat) (p : PolicyTable)
    (a : nlattr) (b : Nat)
    (hty : nla_type a ≤ maxtype)
    (hstr : (p (nla_type a)).type_ = NLA_STRING)
    (hmin : (effective_minlen (p (nla_type a)) : Int) ≤ nla_len a)
    (hmax : ¬((p (nla_type a)).maxlen ≠ 0 ∧
      nla_len a > ((p (nla_type a)).maxlen : Int)))
    (hb : payloadByte (nla_data a) ((nla_len a).toNat - 1) = some b) :
    validate_nla a maxtype p =
      if b ≠ 0 then some (-NLE_INVAL) else some 0 := by
  simp only [validate_nla]
  rw [if_neg (Nat.not_lt.2 hty), if_neg (by rw [hstr]; decide),
    if_neg (not_lt.2 hmin)]
  simp only [validate_after_minlen]
  rw [if_neg hmax, if_pos hstr, hb]

/-- C6 witness: a type-0 record under the string policy with payload
bytes `[65, 66]` ends in 66 ≠ 0 and fails with `-NLE_INVAL`. -/
theorem validate_nla_string_terminator_witness :
    validate_nla { nla_len := 6, nla_type := 0, payload := .raw [65, 66] }
      2 examplePolicy =
      if (66 : Nat) ≠ 0 then some (-NLE_INVAL) else some 0 :=
  validate_nla_string_terminator 2 examplePolicy
    { nla_len := 6, nla_type := 0, payload := .raw [65, 66] } 66
    (by decide) (by decide) (by decide) (by decide) (by decide)

end Libnl
